import Mathlib

/-!
Verification development for the genesis-protocol repository.

The repository's frontend (Next.js) is present in source form; the backend
core described by the specification (generation orchestrator, graph store,
moderation gate, significance scorer, canon auditor, storylet library) is
documented in the repository's design document and called from the frontend
API client, but its implementation is not part of the checked-in sources.
Components of that core are therefore modelled from the specification, as
marked on each definition.  The episode-reader behaviour (panel query
parameter, empty-panel rendering) is embedded directly from the frontend
source `src/frontend/src/app/hero/episodes/[episodeId]/page.tsx`.
-/

namespace Genesis

/-! ## Significance Scorer (§4.5 of the spec; design doc "Significance Scoring") -/

/-- Modelled from the spec: the Significance Scorer implementation is not in
the checked-in sources.  A tagged event carries a base magnitude (1–10,
supplied by the script-generation output's event tags) and an event type used
for the novelty check. -/
structure TaggedEvent where
  eventType : String
  baseMagnitude : ℚ
deriving DecidableEq

/-- Modelled from the spec: the social context of a scored event — how many
friends reference the event, and the Canon history of already-seen event
types used for the semantic-equivalence (novelty) check. -/
structure SocialContext where
  friendReferenceCount : ℕ
  canonHistory : List String
deriving DecidableEq

/-- Modelled from the spec: `noveltyBonus = 1.5` if no semantically
equivalent event exists in Canon history, else `1.0`.  Following the design
document, semantic equivalence is equality of event types. -/
def noveltyBonus (e : TaggedEvent) (ctx : SocialContext) : ℚ :=
  if e.eventType ∈ ctx.canonHistory then 1 else 3 / 2

/-- Modelled from the spec: the pure scoring function
`score(event, socialContext) = base_magnitude × (1 + 0.1 × friendReferenceCount) × noveltyBonus`. -/
def score (e : TaggedEvent) (ctx : SocialContext) : ℚ :=
  e.baseMagnitude * (1 + (ctx.friendReferenceCount : ℚ) / 10) * noveltyBonus e ctx

/-! ## Moderation Gate (§4.3 of the spec; design doc "Content Moderation Pipeline") -/

inductive Verdict where
  | accept
  | regenerate
  | escalate
deriving DecidableEq

/-- Modelled from the spec: per-Hero configurable moderation thresholds. -/
structure PolicyConfig where
  acceptThreshold : ℚ
  reviewThreshold : ℚ

/-- Modelled from the spec: a candidate artifact together with the
deterministic classifier score its text/image path produces for it. -/
structure Artifact where
  content : String
  classifierScore : ℚ

structure ModerationResult where
  verdict : Verdict
  modScore : ℚ
deriving DecidableEq

/-- Modelled from the spec: the Moderation Gate's deterministic rule —
`score ≥ accept_threshold → accept`;
`review_threshold ≤ score < accept_threshold → regenerate`;
`score < review_threshold → escalate`; checked in that order. -/
def evaluate (a : Artifact) (cfg : PolicyConfig) : ModerationResult :=
  let s := a.classifierScore
  if cfg.acceptThreshold ≤ s then ⟨.accept, s⟩
  else if cfg.reviewThreshold ≤ s then ⟨.regenerate, s⟩
  else ⟨.escalate, s⟩

/-! ## Episode store and generation trigger (§4.1, §4.2, §6, §8 of the spec;
frontend caller `api.generateEpisode`, Neo4j composite index
`Episode(hero_id, episode_number)`) -/

/-- Terminal status of a stored, successfully generated Episode.  Modelled
from the spec: `Complete` when the video stage succeeded, `PartialComplete`
when script and panels are done but video was skipped or failed. -/
inductive EpStatus where
  | complete
  | partialComplete
deriving DecidableEq

/-- Modelled from the spec: the persisted Episode record — child of exactly
one Hero, with a per-Hero sequence number and the generation period it was
produced for. -/
structure EpisodeRec where
  heroId : ℕ
  seq : ℕ
  period : ℕ
  status : EpStatus
deriving DecidableEq

/-- The Graph Store's persisted Episodes, in commit order. -/
abbrev Store := List EpisodeRec

def heroEpisodes (st : Store) (h : ℕ) : List EpisodeRec :=
  st.filter (fun e => e.heroId = h)

/-- Sequence numbers of a Hero's Episodes, in commit order. -/
def seqsOf (st : Store) (h : ℕ) : List ℕ :=
  (heroEpisodes st h).map (fun e => e.seq)

/-- Modelled from the spec: the idempotency lookup — a Hero's Episode for
the given generation period whose status is `Complete` or
`PartialComplete`, if any. -/
def periodEpisode? (st : Store) (h p : ℕ) : Option EpisodeRec :=
  (heroEpisodes st h).find?
    (fun e => e.period = p && (e.status = .complete || e.status = .partialComplete))

/-- Result shape of the trigger interface:
`EpisodeResult | {status: "already_generated", episode}`. -/
inductive TriggerResult where
  | created (e : EpisodeRec)
  | alreadyGenerated (e : EpisodeRec)
deriving DecidableEq

/-- The Episode a trigger result hands back to its caller. -/
def TriggerResult.episode : TriggerResult → EpisodeRec
  | .created e => e
  | .alreadyGenerated e => e

/-- Modelled from the spec: `generateEpisode(heroId)` for one generation
period, serialized per Hero by the per-Hero counter lock, so each call is one
atomic step.  A Hero that already has a `Complete`/`PartialComplete` Episode
for the period gets that Episode back; otherwise a new Episode is committed
with the next sequence number of the per-Hero monotonic counter.  The run's
terminal status is `Complete` or `PartialComplete` according to video
availability (`videoOk`); whole-episode failures are outside this model. -/
def generateEpisode (h p : ℕ) (videoOk : Bool) (st : Store) :
    TriggerResult × Store :=
  match periodEpisode? st h p with
  | some e => (.alreadyGenerated e, st)
  | none =>
    let e : EpisodeRec :=
      ⟨h, (heroEpisodes st h).length + 1, p,
        if videoOk then .complete else .partialComplete⟩
    (.created e, st ++ [e])

/-- A batched sequence of trigger calls `(heroId, period, videoOk)`,
executed in order (the serialization produced by the per-Hero lock). -/
def runCalls (calls : List (ℕ × ℕ × Bool)) (st : Store) :
    List TriggerResult × Store :=
  match calls with
  | [] => ([], st)
  | c :: rest =>
    let (r, st') := generateEpisode c.1 c.2.1 c.2.2 st
    let (rs, st'') := runCalls rest st'
    (r :: rs, st'')

/-- States reachable from the empty store by trigger calls. -/
def Reachable (st : Store) : Prop :=
  ∃ calls : List (ℕ × ℕ × Bool), (runCalls calls []).2 = st

/-- Number of a Hero's Episodes for a given period. -/
def periodCount (st : Store) (h p : ℕ) : ℕ :=
  ((heroEpisodes st h).filter (fun e => e.period = p)).length

/-! ## Lemmas about the episode store -/

lemma heroEpisodes_append_own (st : Store) (e : EpisodeRec) :
    heroEpisodes (st ++ [e]) e.heroId = heroEpisodes st e.heroId ++ [e] := by
  simp [heroEpisodes, List.filter_append]

lemma heroEpisodes_append_other (st : Store) (e : EpisodeRec) (h : ℕ)
    (hh : e.heroId ≠ h) :
    heroEpisodes (st ++ [e]) h = heroEpisodes st h := by
  simp [heroEpisodes, List.filter_append, hh]

lemma episodeStatus_ok (e : EpisodeRec) :
    (e.status = EpStatus.complete || e.status = EpStatus.partialComplete) = true := by
  cases e.status <;> simp

/-- If the idempotency lookup finds nothing, the Hero has no Episode at all
for the period (every stored Episode has a successful terminal status). -/
lemma periodCount_eq_zero_of_lookup_none (st : Store) (h p : ℕ)
    (hnone : periodEpisode? st h p = none) : periodCount st h p = 0 := by
  unfold periodEpisode? at hnone
  rw [List.find?_eq_none] at hnone
  unfold periodCount
  rw [List.length_eq_zero, List.filter_eq_nil_iff]
  intro e he
  intro hp
  have := hnone e he
  rw [Bool.and_eq_true] at this
  push_neg at this
  exact absurd (episodeStatus_ok e) (this hp)

/-- After committing a fresh Episode for the period, the lookup finds it. -/
lemma periodEpisode?_after_commit (st : Store) (h p n : ℕ) (s : EpStatus)
    (hnone : periodEpisode? st h p = none) :
    periodEpisode? (st ++ [⟨h, n, p, s⟩]) h p = some ⟨h, n, p, s⟩ := by
  unfold periodEpisode? at hnone ⊢
  have hfilter : heroEpisodes (st ++ [(⟨h, n, p, s⟩ : EpisodeRec)]) h =
      heroEpisodes st h ++ [⟨h, n, p, s⟩] := by
    simp [heroEpisodes, List.filter_append]
  rw [hfilter, List.find?_append, hnone, Option.none_or]
  simp [episodeStatus_ok]

/-- A call whose Hero already has a period Episode returns it unchanged. -/
lemma generateEpisode_already (st : Store) (h p : ℕ) (b : Bool) (e : EpisodeRec)
    (hsome : periodEpisode? st h p = some e) :
    generateEpisode h p b st = (.alreadyGenerated e, st) := by
  unfold generateEpisode
  rw [hsome]

/-- A call whose Hero has no period Episode commits one with the next
sequence number. -/
lemma generateEpisode_fresh (st : Store) (h p : ℕ) (b : Bool)
    (hnone : periodEpisode? st h p = none) :
    generateEpisode h p b st =
      (.created ⟨h, (heroEpisodes st h).length + 1, p,
          if b then .complete else .partialComplete⟩,
       st ++ [⟨h, (heroEpisodes st h).length + 1, p,
          if b then .complete else .partialComplete⟩]) := by
  unfold generateEpisode
  rw [hnone]

/-- The gapless-sequence invariant: every Hero's sequence numbers, in commit
order, are exactly `1, 2, …, k`. -/
def SeqInv (st : Store) : Prop :=
  ∀ h, seqsOf st h = List.range' 1 (heroEpisodes st h).length

lemma seqInv_nil : SeqInv [] := by
  intro h
  simp [seqsOf, heroEpisodes]

lemma seqInv_step (st : Store) (h p : ℕ) (b : Bool) (hinv : SeqInv st) :
    SeqInv (generateEpisode h p b st).2 := by
  cases hsome : periodEpisode? st h p with
  | some e =>
    rw [generateEpisode_already st h p b e hsome]
    exact hinv
  | none =>
    rw [generateEpisode_fresh st h p b hsome]
    intro h'
    by_cases hh : h = h'
    · subst hh
      have hfe := heroEpisodes_append_own st
        ⟨h, (heroEpisodes st h).length + 1, p,
          if b then .complete else .partialComplete⟩
      simp only at hfe
      rw [seqsOf, hfe, List.map_append, ← seqsOf, hinv h, List.length_append]
      simp [List.range'_concat, Nat.add_comm]
    · have hfe := heroEpisodes_append_other st
        ⟨h, (heroEpisodes st h).length + 1, p,
          if b then .complete else .partialComplete⟩ h' hh
      rw [seqsOf, hfe, ← seqsOf]
      exact hinv h'

lemma seqInv_runCalls (calls : List (ℕ × ℕ × Bool)) (st : Store)
    (hinv : SeqInv st) : SeqInv (runCalls calls st).2 := by
  induction calls generalizing st with
  | nil => exact hinv
  | cons c rest ih =>
    simp only [runCalls]
    exact ih _ (seqInv_step st c.1 c.2.1 c.2.2 hinv)

lemma seqInv_of_reachable (st : Store) (hst : Reachable st) : SeqInv st := by
  obtain ⟨calls, hcalls⟩ := hst
  rw [← hcalls]
  exact seqInv_runCalls calls [] seqInv_nil

/-- Running further same-Hero same-period calls after the period Episode
exists changes nothing and returns that Episode to every caller. -/
lemma runCalls_saturated (envs : List Bool) (st : Store) (h p : ℕ)
    (e : EpisodeRec) (hsome : periodEpisode? st h p = some e) :
    (runCalls (envs.map fun b => (h, p, b)) st).2 = st ∧
    ∀ r ∈ (runCalls (envs.map fun b => (h, p, b)) st).1, r.episode = e := by
  induction envs with
  | nil => simp [runCalls]
  | cons b rest ih =>
    simp only [List.map_cons, runCalls, generateEpisode_already st h p b e hsome]
    obtain ⟨ih1, ih2⟩ := ih
    refine ⟨ih1, ?_⟩
    intro r hr
    rcases List.mem_cons.mp hr with hr | hr
    · rw [hr]
      rfl
    · exact ih2 r hr

lemma periodCount_after_commit (st : Store) (h p n : ℕ) (s : EpStatus) :
    periodCount (st ++ [⟨h, n, p, s⟩]) h p = periodCount st h p + 1 := by
  simp [periodCount, heroEpisodes, List.filter_append]

/-! ## Theorems for the episode store and generation trigger -/

/-- C1: for every Hero in every reachable store, the Episode sequence
numbers are exactly `1, 2, …, k` in commit order — unique, strictly
increasing and gapless; and firing any non-empty batch of `generateEpisode`
calls for one Hero within one generation period (serialized by the per-Hero
lock) creates exactly one Episode, which is returned to every caller. -/
theorem episode_sequence_and_trigger_storm (st : Store) (hst : Reachable st) :
    (∀ h, seqsOf st h = List.range' 1 (heroEpisodes st h).length ∧
      (seqsOf st h).Pairwise (· < ·)) ∧
    (∀ (h p : ℕ) (envs : List Bool), periodEpisode? st h p = none → envs ≠ [] →
      ∃ e : EpisodeRec,
        periodCount (runCalls (envs.map fun b => (h, p, b)) st).2 h p = 1 ∧
        ∀ r ∈ (runCalls (envs.map fun b => (h, p, b)) st).1, r.episode = e) := by
  have hinv := seqInv_of_reachable st hst
  constructor
  · intro h
    refine ⟨hinv h, ?_⟩
    rw [hinv h]
    exact List.pairwise_lt_range' 1 (heroEpisodes st h).length
  · intro h p envs hnone hne
    cases envs with
    | nil => exact absurd rfl hne
    | cons b rest =>
      simp only [List.map_cons, runCalls,
        generateEpisode_fresh st h p b hnone]
      set e₀ : EpisodeRec :=
        ⟨h, (heroEpisodes st h).length + 1, p,
          if b then .complete else .partialComplete⟩ with he₀
      have hafter : periodEpisode? (st ++ [e₀]) h p = some e₀ :=
        periodEpisode?_after_commit st h p _ _ hnone
      obtain ⟨hsat2, hsat1⟩ := runCalls_saturated rest (st ++ [e₀]) h p e₀ hafter
      refine ⟨e₀, ?_, ?_⟩
      · rw [hsat2, periodCount_after_commit,
          periodCount_eq_zero_of_lookup_none st h p hnone]
      · intro r hr
        rcases List.mem_cons.mp hr with hr | hr
        · rw [hr]
          rfl
        · exact hsat1 r hr

/-- Witness for C1: a storm of three trigger calls for Hero 0 in period 0
against the (reachable) empty store creates one Episode and hands it to all
three callers. -/
theorem episode_sequence_and_trigger_storm_witness :
    Reachable ([] : Store) ∧
    periodEpisode? ([] : Store) 0 0 = none ∧
    ∃ e : EpisodeRec,
      periodCount (runCalls ([true, true, true].map fun b => (0, 0, b)) []).2 0 0 = 1 ∧
      ∀ r ∈ (runCalls ([true, true, true].map fun b => (0, 0, b)) []).1, r.episode = e := by
  refine ⟨⟨[], rfl⟩, rfl, ?_⟩
  exact (episode_sequence_and_trigger_storm [] ⟨[], rfl⟩).2 0 0 [true, true, true]
    rfl (by simp)

/-- C2: `generateEpisode(heroId)` is idempotent within one generation
period — two consecutive calls in the same period hand back the same
Episode; and a trigger for a Hero that already has a `Complete` or
`PartialComplete` Episode for the current period returns that Episode
without creating a duplicate (the store is unchanged). -/
theorem generateEpisode_idempotent_per_period :
    (∀ (st : Store) (h p : ℕ) (b₁ b₂ : Bool),
      ((generateEpisode h p b₂ (generateEpisode h p b₁ st).2).1).episode =
        ((generateEpisode h p b₁ st).1).episode) ∧
    (∀ (st : Store) (h p : ℕ) (b : Bool) (e : EpisodeRec),
      periodEpisode? st h p = some e →
      generateEpisode h p b st = (.alreadyGenerated e, st)) := by
  constructor
  · intro st h p b₁ b₂
    cases hop : periodEpisode? st h p with
    | some e =>
      rw [generateEpisode_already st h p b₁ e hop]
      simp only
      rw [generateEpisode_already st h p b₂ e hop]
    | none =>
      rw [generateEpisode_fresh st h p b₁ hop]
      simp only
      rw [generateEpisode_already _ h p b₂ _
        (periodEpisode?_after_commit st h p _ _ hop)]
      rfl
  · exact fun st h p b e => generateEpisode_already st h p b e

/-- Witness for C2: a store already holding a `Complete` Episode of Hero 0
for period 0 returns it unchanged, and two consecutive triggers on the empty
store hand back the same Episode. -/
theorem generateEpisode_idempotent_per_period_witness :
    generateEpisode 0 0 true [⟨0, 1, 0, .complete⟩] =
      (.alreadyGenerated ⟨0, 1, 0, .complete⟩, [⟨0, 1, 0, .complete⟩]) ∧
    ((generateEpisode 0 0 true (generateEpisode 0 0 true []).2).1).episode =
      ((generateEpisode 0 0 true ([] : Store)).1).episode := by
  constructor
  · exact generateEpisode_idempotent_per_period.2 [⟨0, 1, 0, .complete⟩] 0 0 true
      ⟨0, 1, 0, .complete⟩ rfl
  · exact generateEpisode_idempotent_per_period.1 [] 0 0 true true

/-! ## Theorems for the Significance Scorer and Moderation Gate -/

/-- C3: The Significance Scorer is the pure function
`score(event, socialContext) = base_magnitude × (1 + 0.1 × friendReferenceCount) × noveltyBonus`,
with `noveltyBonus = 1.5` exactly when no semantically equivalent event exists
in Canon history and `1.0` otherwise; identical inputs always yield the
identical score, and the fixture `base_magnitude = 8, friendReferenceCount = 2,
novel = true` yields exactly `14.4`. -/
theorem significance_score_formula_and_fixture :
    (∀ (e : TaggedEvent) (ctx : SocialContext),
      score e ctx =
        e.baseMagnitude * (1 + (1 / 10) * (ctx.friendReferenceCount : ℚ)) *
          (if e.eventType ∈ ctx.canonHistory then 1 else 3 / 2)) ∧
    (∀ (e e' : TaggedEvent) (ctx ctx' : SocialContext),
      e = e' → ctx = ctx' → score e ctx = score e' ctx') ∧
    score ⟨"rift_sealed", 8⟩ ⟨2, ["city_saved"]⟩ = 14.4 := by
  refine ⟨fun e ctx => ?_, fun e e' ctx ctx' he hctx => by rw [he, hctx], ?_⟩
  · simp only [score, noveltyBonus]
    ring_nf
  · simp only [score, noveltyBonus, List.mem_cons, List.not_mem_nil]
    norm_num
    decide

/-- C4 counterexample: the claim quantifies over every policy configuration,
including one with `review_threshold > accept_threshold`.  There the clause
"escalate exactly when score < review_threshold" fails: with
`accept_threshold = 0`, `review_threshold = 1` and classifier score `0`, the
gate's first rule returns `accept` although the score is below the review
threshold. -/
theorem moderation_escalate_iff_fails_for_inverted_config :
    ¬ (((evaluate ⟨"p", 0⟩ ⟨0, 1⟩).verdict = .escalate) ↔
        (Artifact.classifierScore ⟨"p", 0⟩ < PolicyConfig.reviewThreshold ⟨0, 1⟩)) := by
  intro h
  have h0 : Artifact.classifierScore ⟨"p", 0⟩ < PolicyConfig.reviewThreshold ⟨0, 1⟩ := by
    norm_num
  have hev : (evaluate ⟨"p", 0⟩ ⟨0, 1⟩).verdict = .accept := by
    norm_num [evaluate]
  exact absurd (hev.symm.trans (h.mpr h0)) (by decide)

/-- C4 (amended): for every artifact and every policy configuration whose
review threshold does not exceed its accept threshold, `evaluate` returns
`accept` exactly when `score ≥ accept_threshold`, `regenerate` exactly when
`review_threshold ≤ score < accept_threshold`, and `escalate` exactly when
`score < review_threshold`; and for a fixed artifact and fixed policy config
it always returns the same verdict. -/
theorem moderation_verdict_characterization (a : Artifact) (cfg : PolicyConfig)
    (hcfg : cfg.reviewThreshold ≤ cfg.acceptThreshold) :
    ((evaluate a cfg).verdict = .accept ↔ cfg.acceptThreshold ≤ a.classifierScore) ∧
    ((evaluate a cfg).verdict = .regenerate ↔
      cfg.reviewThreshold ≤ a.classifierScore ∧ a.classifierScore < cfg.acceptThreshold) ∧
    ((evaluate a cfg).verdict = .escalate ↔ a.classifierScore < cfg.reviewThreshold) ∧
    (∀ (a' : Artifact) (cfg' : PolicyConfig), a' = a → cfg' = cfg →
      evaluate a' cfg' = evaluate a cfg) := by
  have hv : (evaluate a cfg).verdict =
      if cfg.acceptThreshold ≤ a.classifierScore then .accept
      else if cfg.reviewThreshold ≤ a.classifierScore then .regenerate
      else .escalate := by
    simp only [evaluate]
    split_ifs <;> rfl
  refine ⟨?_, ?_, ?_, fun a' cfg' ha hc => by rw [ha, hc]⟩
  · rw [hv]
    split_ifs with h1 h2
    · simp [h1]
    · simp [h1]
    · simp [h1]
  · rw [hv]
    split_ifs with h1 h2
    · constructor
      · intro hx
        exact absurd hx (by decide)
      · rintro ⟨-, h4⟩
        exact absurd h1 (not_le.mpr h4)
    · exact ⟨fun _ => ⟨h2, not_le.mp h1⟩, fun _ => rfl⟩
    · constructor
      · intro hx
        exact absurd hx (by decide)
      · rintro ⟨h3, -⟩
        exact absurd h3 h2
  · rw [hv]
    split_ifs with h1 h2
    · constructor
      · intro hx
        exact absurd hx (by decide)
      · intro h4
        exact absurd (hcfg.trans h1) (not_le.mpr h4)
    · constructor
      · intro hx
        exact absurd hx (by decide)
      · intro h4
        exact absurd h2 (not_le.mpr h4)
    · exact ⟨fun _ => not_le.mp h2, fun _ => rfl⟩

/-- Witness for C4 (amended) at a concrete artifact and configuration. -/
theorem moderation_verdict_characterization_witness :
    ((1 : ℚ) / 2 ≤ (3 : ℚ) / 4) ∧
      ((evaluate ⟨"panel", 3 / 5⟩ ⟨3 / 4, 1 / 2⟩).verdict = .regenerate ↔
        (1 : ℚ) / 2 ≤ 3 / 5 ∧ (3 : ℚ) / 5 < 3 / 4) := by
  constructor
  · norm_num
  · exact (moderation_verdict_characterization ⟨"panel", 3 / 5⟩ ⟨3 / 4, 1 / 2⟩
      (by norm_num)).2.1

/-! ## Canon events and the contradiction check (§3, §4.1, §4.6 of the spec;
design doc "Agentic Assistance": no two simultaneous mutually exclusive
world states) -/

inductive CanonStatus where
  | proposed
  | active
  | resolved
deriving DecidableEq

/-- Modelled from the spec: a CanonEvent asserting a world state over a
Location and a time window. -/
structure CanonEvent where
  cid : ℕ
  location : String
  startT : ℤ
  endT : ℤ
  assertsState : String
  status : CanonStatus
deriving DecidableEq

/-- Modelled from the spec: the explicit table of mutually exclusive state
pairs maintained by the Canon Auditor (not inferred). -/
abbrev ExclusivityTable := List (String × String)

def mutuallyExclusive (tbl : ExclusivityTable) (a b : String) : Bool :=
  tbl.contains (a, b) || tbl.contains (b, a)

/-- Two events cover overlapping Location/time windows. -/
def windowOverlaps (e₁ e₂ : CanonEvent) : Bool :=
  e₁.location = e₂.location && e₁.startT ≤ e₂.endT && e₂.startT ≤ e₁.endT

/-- Modelled from the spec: an already-active event blocks a candidate when
their windows overlap and their asserted states are mutually exclusive. -/
def conflictsWith (tbl : ExclusivityTable) (e₁ e₂ : CanonEvent) : Bool :=
  e₁.status = .active && windowOverlaps e₁ e₂ &&
    mutuallyExclusive tbl e₁.assertsState e₂.assertsState

abbrev CanonStore := List CanonEvent

/-- The Canon Auditor's contradiction check for a candidate event. -/
def hasCanonConflict (tbl : ExclusivityTable) (st : CanonStore) (e : CanonEvent) : Bool :=
  st.any (fun e' => conflictsWith tbl e' e)

inductive CanonError where
  | canonConflict
  | notFound
deriving DecidableEq

/-- Modelled from the spec: `activateCanonEvent(id)` transitions the event
to `active` only if the contradiction check passes, else fails with
`CanonConflict`. -/
def activateCanonEvent (tbl : ExclusivityTable) (st : CanonStore) (id : ℕ) :
    Except CanonError CanonStore :=
  match st.find? (fun e => e.cid = id) with
  | none => .error .notFound
  | some e =>
    if hasCanonConflict tbl st e then .error .canonConflict
    else .ok (st.map fun x => if x.cid = id then { x with status := .active } else x)

/-- C5: if an active CanonEvent asserts a state mutually exclusive with a
second event's over an overlapping Location/time window, activating the
second fails with `CanonConflict` (so it is not transitioned to active);
and in general `activateCanonEvent` transitions an event to active only if
the contradiction check passes. -/
theorem activateCanonEvent_conflict (tbl : ExclusivityTable) (st : CanonStore)
    (e₁ e₂ : CanonEvent) (h₁ : e₁ ∈ st) (hact : e₁.status = .active)
    (hfind : st.find? (fun e => e.cid = e₂.cid) = some e₂)
    (hover : windowOverlaps e₁ e₂ = true)
    (hmx : mutuallyExclusive tbl e₁.assertsState e₂.assertsState = true) :
    activateCanonEvent tbl st e₂.cid = .error .canonConflict ∧
    (∀ (id : ℕ) (st' : CanonStore), activateCanonEvent tbl st id = .ok st' →
      ∃ e, st.find? (fun x => x.cid = id) = some e ∧
        hasCanonConflict tbl st e = false) := by
  have hconf : hasCanonConflict tbl st e₂ = true := by
    unfold hasCanonConflict
    rw [List.any_eq_true]
    refine ⟨e₁, h₁, ?_⟩
    unfold conflictsWith
    rw [hover, hmx]
    simp [hact]
  constructor
  · unfold activateCanonEvent
    rw [hfind]
    dsimp only
    rw [if_pos hconf]
  · intro id st' hok
    unfold activateCanonEvent at hok
    cases hfind' : st.find? (fun x => x.cid = id) with
    | none =>
      rw [hfind'] at hok
      exact absurd hok (by simp)
    | some e =>
      rw [hfind'] at hok
      dsimp only at hok
      refine ⟨e, rfl, ?_⟩
      by_contra hne
      rw [Bool.not_eq_false] at hne
      rw [if_pos hne] at hok
      exact absurd hok (by simp)

/-- Witness for C5: with the exclusivity pair (sky_sealed, sky_torn), an
active "sky sealed" event over Sector 7 makes activating an overlapping
"sky torn" event fail with `CanonConflict`. -/
theorem activateCanonEvent_conflict_witness :
    activateCanonEvent [("sky_sealed", "sky_torn")]
      [⟨1, "sector7", 0, 10, "sky_sealed", .active⟩,
       ⟨2, "sector7", 5, 15, "sky_torn", .proposed⟩] 2 =
      .error .canonConflict := by
  exact (activateCanonEvent_conflict [("sky_sealed", "sky_torn")]
    [⟨1, "sector7", 0, 10, "sky_sealed", .active⟩,
     ⟨2, "sector7", 5, 15, "sky_torn", .proposed⟩]
    ⟨1, "sector7", 0, 10, "sky_sealed", .active⟩
    ⟨2, "sector7", 5, 15, "sky_torn", .proposed⟩
    (by simp) rfl rfl rfl rfl).1

/-! ## Generation pipeline: panel retries and the video stage (§4.2, §7, §8
of the spec; design doc "Art Department Panel Generation"; frontend Episode
read shape `HeroEpisode` in `src/frontend/src/lib/api.ts`) -/

/-- Modelled from the spec: one panel of a validated script. -/
structure ScriptPanel where
  visualPrompt : String
  caption : Option String
deriving DecidableEq

/-- Modelled from the spec: a schema-valid script — title, synopsis,
ordered panels, tags, Canon references. -/
structure Script where
  title : String
  synopsis : String
  panels : List ScriptPanel
  tags : List String
  canonReferences : List String
deriving DecidableEq

/-- The panel acceptance threshold of the spec (0.75). -/
def panelAcceptThreshold : ℚ := 3 / 4

/-- The per-panel regeneration bound of the spec (3 retries). -/
def maxPanelRetries : ℕ := 3

/-- Modelled from the spec: a generated panel as persisted on the Episode
(panel number, generation prompt, safety score, retry count), plus the
human-review flag set when the retry bound is exceeded. -/
structure GeneratedPanel where
  panelNumber : ℕ
  generationPrompt : String
  safetyScore : ℚ
  retryCount : ℕ
  needsReview : Bool
deriving DecidableEq

/-- First attempt (0 = initial, then retries 1..3) whose moderation score
reaches the acceptance threshold, if any. -/
def firstPassingAttempt (scores : ℕ → ℚ) : Option ℕ :=
  (List.range (maxPanelRetries + 1)).find? (fun a => panelAcceptThreshold ≤ scores a)

/-- Modelled from the spec: generate one panel, regenerating while the
Moderation Gate's image score is below the threshold, bounded at
`maxPanelRetries`; exceeding the bound marks the panel `needs_review`
instead of failing the episode. -/
def generatePanel (scores : ℕ → ℚ) (pn : ℕ) (sp : ScriptPanel) : GeneratedPanel :=
  match firstPassingAttempt scores with
  | some a => ⟨pn, sp.visualPrompt, scores a, a, false⟩
  | none => ⟨pn, sp.visualPrompt, scores maxPanelRetries, maxPanelRetries, true⟩

/-- Modelled from the spec: the panel stage, strictly in panel-number order;
`scores i a` is the Moderation Gate's score for attempt `a` of panel `i`. -/
def panelStage (scores : ℕ → ℕ → ℚ) (s : Script) : List GeneratedPanel :=
  s.panels.enum.map (fun ie => generatePanel (scores ie.1) (ie.1 + 1) ie.2)

structure VideoRef where
  videoUrl : String
  durationSeconds : ℕ
deriving DecidableEq

/-- Successful terminal states of the Episode state machine. -/
inductive TermStatus where
  | complete
  | partialComplete
deriving DecidableEq

/-- Script-stage failures that fail the whole episode. -/
inductive ScriptFailure where
  | schemaInvalid
  | escalatedForReview
deriving DecidableEq

/-- Outcome of one generation run. -/
inductive PipelineResult where
  | failed (reason : ScriptFailure)
  | finished (script : Script) (panels : List GeneratedPanel)
      (video : Option VideoRef) (status : TermStatus)
      (failureReason : Option String)
deriving DecidableEq

/-- Modelled from the spec: the Generation Orchestrator run —
script stage, then the panel stage with its per-panel retry bound, then the
optional video stage.  Video failure never fails the episode: it demotes the
terminal state to `PartialComplete` and records the failure reason. -/
def runPipeline (scriptResult : Except ScriptFailure Script)
    (scores : ℕ → ℕ → ℚ) (videoResult : Except String VideoRef) :
    PipelineResult :=
  match scriptResult with
  | .error r => .failed r
  | .ok s =>
    let panels := panelStage scores s
    match videoResult with
    | .ok v => .finished s panels (some v) .complete none
    | .error msg => .finished s panels none .partialComplete (some msg)

/-- C6: a panel whose moderation score stays below the acceptance threshold
(0.75) through the initial attempt and all 3 retries is marked
`needs_review`, and the episode still reaches `Complete` or
`PartialComplete`, never `Failed`. -/
theorem panel_retry_bound_needs_review (s : Script) (scores : ℕ → ℕ → ℚ)
    (video : Except String VideoRef) (i : ℕ) (hi : i < s.panels.length)
    (hlow : ∀ a, a ≤ maxPanelRetries → scores i a < panelAcceptThreshold) :
    ∃ (panels : List GeneratedPanel) (v : Option VideoRef) (st : TermStatus)
      (fr : Option String),
      runPipeline (.ok s) scores video = .finished s panels v st fr ∧
      (∃ gp : GeneratedPanel, panels.get? i = some gp ∧
        gp.needsReview = true ∧ gp.retryCount = maxPanelRetries) ∧
      (st = .complete ∨ st = .partialComplete) := by
  have hnone : firstPassingAttempt (scores i) = none := by
    unfold firstPassingAttempt
    rw [List.find?_eq_none]
    intro a ha
    rw [List.mem_range] at ha
    have := hlow a (by omega)
    simpa using not_le.mpr this
  have hsp : ∃ sp, s.panels.get? i = some sp :=
    ⟨s.panels.get ⟨i, hi⟩, List.get?_eq_get hi⟩
  obtain ⟨sp, hsp⟩ := hsp
  have hpanel : (panelStage scores s).get? i =
      some (generatePanel (scores i) (i + 1) sp) := by
    unfold panelStage
    rw [List.get?_map, List.get?_enum, hsp]
    rfl
  have hgen : generatePanel (scores i) (i + 1) sp =
      ⟨i + 1, sp.visualPrompt, scores i maxPanelRetries, maxPanelRetries, true⟩ := by
    unfold generatePanel
    rw [hnone]
  cases video with
  | ok v =>
    exact ⟨panelStage scores s, some v, .complete, none, rfl,
      ⟨_, hpanel, by rw [hgen], by rw [hgen]⟩, Or.inl rfl⟩
  | error msg =>
    exact ⟨panelStage scores s, none, .partialComplete, some msg, rfl,
      ⟨_, hpanel, by rw [hgen], by rw [hgen]⟩, Or.inr rfl⟩

/-- Witness for C6: a one-panel script whose panel always scores 0 ends with
that panel marked `needs_review` and the episode `Complete`. -/
theorem panel_retry_bound_needs_review_witness :
    (0 : ℕ) < 1 ∧
    ∃ (panels : List GeneratedPanel) (v : Option VideoRef) (st : TermStatus)
      (fr : Option String),
      runPipeline (.ok ⟨"t", "s", [⟨"prompt", none⟩], [], []⟩)
          (fun _ _ => 0) (.ok ⟨"u", 60⟩) = .finished ⟨"t", "s", [⟨"prompt", none⟩], [], []⟩ panels v st fr ∧
      (∃ gp : GeneratedPanel, panels.get? 0 = some gp ∧
        gp.needsReview = true ∧ gp.retryCount = maxPanelRetries) ∧
      (st = .complete ∨ st = .partialComplete) := by
  refine ⟨Nat.zero_lt_one, ?_⟩
  exact panel_retry_bound_needs_review ⟨"t", "s", [⟨"prompt", none⟩], [], []⟩
    (fun _ _ => 0) (.ok ⟨"u", 60⟩) 0 (by simp)
    (fun a _ => by norm_num [panelAcceptThreshold])

/-- C7: when the script succeeds and video composition fails, the run ends
`PartialComplete` with the failure reason recorded, the script and panels in
the result are exactly the panel-stage outputs (identical to those of the
successful-video run — no data loss), and no video failure ever produces a
`Failed` terminal state. -/
theorem video_failure_partial_complete (s : Script) (scores : ℕ → ℕ → ℚ)
    (msg : String) :
    runPipeline (.ok s) scores (.error msg) =
      .finished s (panelStage scores s) none .partialComplete (some msg) ∧
    (∀ r : ScriptFailure, runPipeline (.ok s) scores (.error msg) ≠ .failed r) ∧
    (∀ v : VideoRef, runPipeline (.ok s) scores (.ok v) =
      .finished s (panelStage scores s) (some v) .complete none) := by
  refine ⟨rfl, ?_, fun v => rfl⟩
  intro r hcontra
  exact PipelineResult.noConfusion hcontra

/-! ## Storylet Library (§4.4 of the spec; design doc "Storylet Generation
Logic": select storylet not used in last 30 days for the Hero) -/

/-- Modelled from the spec: the Hero+Canon context a storylet precondition
is evaluated against. -/
structure HeroContext where
  powerType : String
  location : String
  activeArc : Option String

/-- Modelled from the spec: a storylet template with an identifier, a
precondition predicate over the Hero context, and the Canon arc it
references (for selection weighting). -/
structure Storylet where
  sid : ℕ
  precond : HeroContext → Bool
  referencesArc : Option String

/-- Per-Hero last-used day of each template, by template identifier. -/
abbrev LastUsedMap := ℕ → Option ℕ

/-- The non-repetition window of the spec (default 30 days). -/
def nonRepetitionWindow : ℕ := 30

/-- Modelled from the spec: a template is eligible when its precondition
matches and it was not used for this Hero within the non-repetition
window. -/
def storyletEligible (ctx : HeroContext) (today : ℕ) (lu : LastUsedMap)
    (s : Storylet) : Bool :=
  s.precond ctx &&
    match lu s.sid with
    | none => true
    | some d => decide (d + nonRepetitionWindow ≤ today)

inductive StoryletError where
  | noEligibleStorylet
deriving DecidableEq

/-- Modelled from the spec: `select(heroContext)` — filter to eligible
templates, fail with `NoEligibleStorylet` when none match, otherwise draw
one (the weighted random draw is modelled by the `seed` index: weighting
biases the distribution but any eligible template may be drawn) and record
today as its last-used day for this Hero. -/
def selectStorylet (ctx : HeroContext) (today seed : ℕ)
    (lib : List Storylet) (lu : LastUsedMap) :
    Except StoryletError (Storylet × LastUsedMap) :=
  match lib.filter (storyletEligible ctx today lu) with
  | [] => .error .noEligibleStorylet
  | e :: es =>
    let chosen := (e :: es).get ⟨seed % (e :: es).length, Nat.mod_lt _ (by simp)⟩
    .ok (chosen, fun i => if i = chosen.sid then some today else lu i)

/-- A sequence of selections for one Hero, each step a `(day, seed)` pair;
records the selected template identifiers (`none` on
`NoEligibleStorylet`). -/
def runSelections (ctx : HeroContext) (lib : List Storylet) :
    List (ℕ × ℕ) → LastUsedMap → List (Option ℕ) × LastUsedMap
  | [], lu => ([], lu)
  | (day, seed) :: rest, lu =>
    match selectStorylet ctx day seed lib lu with
    | .error _ =>
      let (rs, lu') := runSelections ctx lib rest lu
      (none :: rs, lu')
    | .ok (s, lu₁) =>
      let (rs, lu') := runSelections ctx lib rest lu₁
      (some s.sid :: rs, lu')

/-- A successful selection returns a template that was not used within the
window, stamps it with today, and leaves every other template's last-used
day unchanged. -/
lemma selectStorylet_ok (ctx : HeroContext) (today seed : ℕ)
    (lib : List Storylet) (lu : LastUsedMap) (s : Storylet) (lu' : LastUsedMap)
    (hsel : selectStorylet ctx today seed lib lu = .ok (s, lu')) :
    (∀ d, lu s.sid = some d → d + nonRepetitionWindow ≤ today) ∧
    lu' s.sid = some today ∧
    (∀ i, i ≠ s.sid → lu' i = lu i) := by
  unfold selectStorylet at hsel
  cases helig : lib.filter (storyletEligible ctx today lu) with
  | nil =>
    rw [helig] at hsel
    exact absurd hsel (by simp)
  | cons e es =>
    rw [helig] at hsel
    simp only [Except.ok.injEq, Prod.mk.injEq] at hsel
    obtain ⟨hs, hlu'⟩ := hsel
    rw [hs] at hlu'
    have hmem : s ∈ lib.filter (storyletEligible ctx today lu) := by
      rw [helig, ← hs]
      exact List.get_mem _ _ _
    have helg : storyletEligible ctx today lu s = true :=
      (List.mem_filter.mp hmem).2
    unfold storyletEligible at helg
    rw [Bool.and_eq_true] at helg
    refine ⟨?_, ?_, ?_⟩
    · intro d hd
      have := helg.2
      rw [hd] at this
      exact of_decide_eq_true this
    · rw [← hlu']
      simp
    · intro i hi
      rw [← hlu']
      simp [hi]

/-- Once a template is stamped with a last-used day at least `d₀`, any later
step of a run that selects it again happens at least one full window after
`d₀`. -/
lemma runSelections_window (ctx : HeroContext) (lib : List Storylet) :
    ∀ (steps : List (ℕ × ℕ)) (lu : LastUsedMap) (sid d₀ : ℕ),
      (∃ d, lu sid = some d ∧ d₀ ≤ d) →
      ∀ (k day seed : ℕ), steps.get? k = some (day, seed) →
        (runSelections ctx lib steps lu).1.get? k = some (some sid) →
        d₀ + nonRepetitionWindow ≤ day := by
  intro steps
  induction steps with
  | nil =>
    intro lu sid d₀ _ k day seed hk
    simp at hk
  | cons step rest ih =>
    intro lu sid d₀ hinv k day seed hk hr
    obtain ⟨d, hd, hd₀⟩ := hinv
    obtain ⟨day₁, seed₁⟩ := step
    cases hsel : selectStorylet ctx day₁ seed₁ lib lu with
    | error err =>
      simp only [runSelections, hsel] at hr
      cases k with
      | zero => simp at hr
      | succ k' =>
        simp only [List.get?_cons_succ] at hk hr
        exact ih lu sid d₀ ⟨d, hd, hd₀⟩ k' day seed hk hr
    | ok pair =>
      obtain ⟨s, lu₁⟩ := pair
      obtain ⟨hwin, hstamp, hother⟩ :=
        selectStorylet_ok ctx day₁ seed₁ lib lu s lu₁ hsel
      simp only [runSelections, hsel] at hr
      cases k with
      | zero =>
        simp only [List.get?_cons_zero, Option.some.injEq] at hk hr
        have hsid : s.sid = sid := by
          simpa using hr
        rw [hsid] at hwin
        have := hwin d hd
        have hday : day₁ = day := (Prod.mk.injEq _ _ _ _ ▸ hk).1
        omega
      | succ k' =>
        simp only [List.get?_cons_succ] at hk hr
        by_cases hsid : sid = s.sid
        · have h1 : lu₁ sid = some day₁ := by
            rw [hsid]
            exact hstamp
          have h2 : d₀ ≤ day₁ := by
            have := hwin d (by rw [← hsid]; exact hd)
            omega
          exact ih lu₁ sid d₀ ⟨day₁, h1, h2⟩ k' day seed hk hr
        · have h1 : lu₁ sid = some d := by
            rw [hother sid hsid]
            exact hd
          exact ih lu₁ sid d₀ ⟨d, h1, hd₀⟩ k' day seed hk hr

/-- C8: storylet selection never returns a template used for the same Hero
within the non-repetition window; and along any run of selections, a
template can be returned a second time only once a full window has elapsed
since the earlier selection's day — so five selections on five consecutive
days never repeat a template, and a sixth selection may return the first
template only if that template's window has elapsed. -/
theorem storylet_selection_non_repetition (ctx : HeroContext) (lib : List Storylet) :
    (∀ (today seed : ℕ) (lu : LastUsedMap) (s : Storylet) (lu' : LastUsedMap),
      selectStorylet ctx today seed lib lu = .ok (s, lu') →
      ∀ d, lu s.sid = some d → d + nonRepetitionWindow ≤ today) ∧
    (∀ (steps : List (ℕ × ℕ)) (lu : LastUsedMap) (i j sid di si dj sj : ℕ),
      i < j →
      steps.get? i = some (di, si) → steps.get? j = some (dj, sj) →
      (runSelections ctx lib steps lu).1.get? i = some (some sid) →
      (runSelections ctx lib steps lu).1.get? j = some (some sid) →
      di + nonRepetitionWindow ≤ dj) := by
  constructor
  · intro today seed lu s lu' hsel
    exact (selectStorylet_ok ctx today seed lib lu s lu' hsel).1
  · intro steps
    induction steps with
    | nil =>
      intro lu i j sid di si dj sj hij hi
      simp at hi
    | cons step rest ih =>
      intro lu i j sid di si dj sj hij hi hj hri hrj
      obtain ⟨day₁, seed₁⟩ := step
      cases hsel : selectStorylet ctx day₁ seed₁ lib lu with
      | error err =>
        simp only [runSelections, hsel] at hri hrj
        cases i with
        | zero => simp at hri
        | succ i' =>
          cases j with
          | zero => omega
          | succ j' =>
            simp only [List.get?_cons_succ] at hi hj hri hrj
            exact ih lu i' j' sid di si dj sj (by omega) hi hj hri hrj
      | ok pair =>
        obtain ⟨s, lu₁⟩ := pair
        obtain ⟨hwin, hstamp, hother⟩ :=
          selectStorylet_ok ctx day₁ seed₁ lib lu s lu₁ hsel
        simp only [runSelections, hsel] at hri hrj
        cases i with
        | zero =>
          simp only [List.get?_cons_zero, Option.some.injEq] at hi hri
          have hsid : s.sid = sid := by
            simpa using hri
          have hday : day₁ = di := (Prod.mk.injEq _ _ _ _ ▸ hi).1
          cases j with
          | zero => omega
          | succ j' =>
            simp only [List.get?_cons_succ] at hj hrj
            have hstamp' : lu₁ sid = some di := by
              rw [← hsid, ← hday]
              exact hstamp
            exact runSelections_window ctx lib rest lu₁ sid di
              ⟨di, hstamp', le_refl di⟩ j' dj sj hj hrj
        | succ i' =>
          cases j with
          | zero => omega
          | succ j' =>
            simp only [List.get?_cons_succ] at hi hj hri hrj
            exact ih lu₁ i' j' sid di si dj sj (by omega) hi hj hri hrj

/-- Witness for C8: one always-eligible template selected on day 0 and
selected again on day 30 (exactly when its window has elapsed); the theorem
yields `0 + nonRepetitionWindow ≤ 30`. -/
theorem storylet_selection_non_repetition_witness :
    0 + nonRepetitionWindow ≤ 30 := by
  exact (storylet_selection_non_repetition ⟨"Tech", "lab", none⟩
      [⟨1, fun _ => true, none⟩]).2
    [(0, 0), (30, 0)] (fun _ => none) 0 1 1 0 0 30 0 (by omega) rfl rfl rfl rfl

/-! ## Episode reader (embedded from
`src/frontend/src/app/hero/episodes/[episodeId]/page.tsx`) -/

/-- JavaScript whitespace skipped by `parseInt`: the ECMAScript WhiteSpace
and LineTerminator sets — TAB, LF, VT, FF, CR (U+0009–U+000D), SP, NBSP
(U+00A0), the Zs space separators (U+1680, U+2000–U+200A, U+202F, U+205F,
U+3000), the line separators U+2028/U+2029, and ZWNBSP (U+FEFF). -/
def isJsSpace (c : Char) : Bool :=
  let n := c.toNat
  (9 ≤ n && n ≤ 13) || n = 32 || n = 0xA0 || n = 0x1680 ||
    (0x2000 ≤ n && n ≤ 0x200A) || n = 0x2028 || n = 0x2029 ||
    n = 0x202F || n = 0x205F || n = 0x3000 || n = 0xFEFF

/-- Value of a decimal digit, by code point (48 = `0`). -/
def decDigitVal? (c : Char) : Option ℕ :=
  let n := c.toNat
  if 48 ≤ n ∧ n ≤ 57 then some (n - 48) else none

/-- Value of a hexadecimal digit, by code point (48 = `0`, 97 = `a`,
65 = `A`; the letter branches offset by 87 resp. 55 so that `a`/`A` ↦ 10). -/
def hexDigitVal? (c : Char) : Option ℕ :=
  let n := c.toNat
  if 48 ≤ n ∧ n ≤ 57 then some (n - 48)
  else if 97 ≤ n ∧ n ≤ 102 then some (n - 87)
  else if 65 ≤ n ∧ n ≤ 70 then some (n - 55)
  else none

/-- Accumulate the longest leading run of digits. -/
def parseDigitsAux (dv : Char → Option ℕ) (base : ℕ) : List Char → ℕ → ℕ
  | [], acc => acc
  | c :: cs, acc =>
    match dv c with
    | some v => parseDigitsAux dv base cs (acc * base + v)
    | none => acc

/-- JavaScript `parseInt(string)` with no radix argument: skip leading
whitespace, optional sign, hexadecimal when the digits start with `0x`/`0X`
and decimal otherwise, longest valid digit prefix, `NaN` (here `none`) when
no digit is found. -/
def jsParseInt (s : String) : Option ℤ :=
  let cs := s.data.dropWhile isJsSpace
  let signed : ℤ × List Char :=
    match cs with
    | '-' :: rest => (-1, rest)
    | '+' :: rest => (1, rest)
    | _ => (1, cs)
  let based : ℕ × (Char → Option ℕ) × List Char :=
    match signed.2 with
    | '0' :: 'x' :: rest => (16, hexDigitVal?, rest)
    | '0' :: 'X' :: rest => (16, hexDigitVal?, rest)
    | rest => (10, decDigitVal?, rest)
  match based.2.2 with
  | [] => none
  | c :: _ =>
    match based.2.1 c with
    | none => none
    | some _ => some (signed.1 * (parseDigitsAux based.2.1 based.1 based.2.2 0 : ℤ))

/-- The integer the reader's `panel` query parameter parses to, if any:
`searchParams.get("panel")` is `null` when absent, the empty string is
falsy and skips the block, and `parseInt` yielding `NaN` makes both range
comparisons false. -/
def panelQueryInt (panelParam : Option String) : Option ℤ :=
  match panelParam with
  | none => none
  | some s => if s = "" then none else jsParseInt s

/-- Embedded from `EpisodeDetailPage` (lines 16 and 42–52): `currentPanel`
starts at 0 and the effect sets it to `parseInt(panelParam) - 1` exactly
when that index is `≥ 0` and `< episode.panels.length`. -/
def initialPanelIndex (panelParam : Option String) (numPanels : ℕ) : ℕ :=
  match panelParam with
  | none => 0
  | some s =>
    if s = "" then 0
    else
      match jsParseInt s with
      | none => 0
      | some p =>
        let panelIndex := p - 1
        if 0 ≤ panelIndex ∧ panelIndex < (numPanels : ℤ) then panelIndex.toNat
        else 0

/-- C9: the reader starts at panel `p` (1-indexed) exactly when the `panel`
query parameter parses to an integer `p` with `1 ≤ p ≤ N`, and starts at
panel 1 (index 0) in every other case — missing, empty, non-numeric, zero,
negative, or greater than `N` — with the out-of-range value silently
ignored. -/
theorem reader_initial_panel (qp : Option String) (n : ℕ) :
    (∀ p : ℤ, panelQueryInt qp = some p → 1 ≤ p → p ≤ (n : ℤ) →
      (initialPanelIndex qp n : ℤ) = p - 1) ∧
    ((∀ p : ℤ, panelQueryInt qp = some p → p < 1 ∨ (n : ℤ) < p) →
      initialPanelIndex qp n = 0) := by
  constructor
  · intro p hp h1 hn
    match qp with
    | none => simp [panelQueryInt] at hp
    | some s =>
      simp only [panelQueryInt] at hp
      by_cases hs : s = ""
      · rw [if_pos hs] at hp
        exact absurd hp (by simp)
      · rw [if_neg hs] at hp
        simp only [initialPanelIndex, if_neg hs, hp]
        rw [if_pos (by omega)]
        omega
  · intro hout
    match qp with
    | none => rfl
    | some s =>
      simp only [panelQueryInt] at hout
      by_cases hs : s = ""
      · simp [initialPanelIndex, hs]
      · rw [if_neg hs] at hout
        simp only [initialPanelIndex, if_neg hs]
        cases hparse : jsParseInt s with
        | none => rfl
        | some p =>
          have := hout p hparse
          dsimp only
          rw [if_neg (by omega)]

/-- Witness for C9: `?panel=3` on a six-panel episode starts the reader at
index 2 (panel 3), an NBSP-prefixed `?panel=%C2%A03` is trimmed the way
`parseInt` trims it and also starts at panel 3, and `?panel=12` on the same
episode is ignored. -/
theorem reader_initial_panel_witness :
    (initialPanelIndex (some "3") 6 : ℤ) = 3 - 1 ∧
    (initialPanelIndex (some "\u00A03") 6 : ℤ) = 3 - 1 ∧
    initialPanelIndex (some "12") 6 = 0 := by
  refine ⟨?_, ?_, ?_⟩
  · exact (reader_initial_panel (some "3") 6).1 3 rfl (by omega) (by omega)
  · exact (reader_initial_panel (some "\u00A03") 6).1 3 rfl (by omega) (by omega)
  · exact (reader_initial_panel (some "12") 6).2
      (fun p hp => by
        have h12 : panelQueryInt (some "12") = some (12 : ℤ) := by decide
        rw [h12] at hp
        have := Option.some.inj hp
        right
        omega)

structure DialogueLine where
  character : String
  text : String
deriving DecidableEq

/-- Embedded from the frontend `Panel` shape used by the reader. -/
structure PanelData where
  panel_number : ℕ
  image_url : Option String
  caption : Option String
  dialogue : List DialogueLine
  action : Option String
deriving DecidableEq

/-- Embedded from the frontend `EpisodeDetail` shape used by the reader. -/
structure EpisodeDetail where
  id : String
  episode_number : ℕ
  title : String
  synopsis : String
  panels : List PanelData
  generation_status : String
  comic_url : Option String
  video_url : Option String
  is_crossover : Bool
deriving DecidableEq

/-- Embedded from `EpisodeDetailPage` line 108:
`panels.length > 0 ? ((currentPanel + 1) / panels.length) * 100 : 0`. -/
def readingProgress (panels : List PanelData) (currentPanel : ℕ) : ℚ :=
  if panels.length > 0 then
    (((currentPanel : ℚ) + 1) / (panels.length : ℚ)) * 100
  else 0

/-- What the loaded page renders: the synopsis-only view (with the pending
notice when generation is still pending, lines 123–182) or the panel
reader. -/
inductive EpisodeView where
  | synopsisOnly (pendingNotice : Bool) (comicLink videoLink : Option String)
  | reader (panel? : Option PanelData) (progress : ℚ)
deriving DecidableEq

/-- Embedded from `EpisodeDetailPage` lines 106–124 and 151–157: with an
empty panel list the page returns the synopsis-only view before any
panel-reader markup; otherwise it renders the reader on
`panels[currentPanel]`. -/
def renderEpisodePage (ep : EpisodeDetail) (currentPanel : ℕ) : EpisodeView :=
  if ep.panels.length = 0 then
    .synopsisOnly (decide (ep.generation_status = "pending")) ep.comic_url ep.video_url
  else
    .reader (ep.panels.get? currentPanel) (readingProgress ep.panels currentPanel)

/-- C10: for every episode whose panel list is empty (for example one still
`pending`), the page renders the synopsis-only view — never the panel
reader — the panel lookup at any current index is `none` (nothing is read
out of the panel list), and the computed reading progress is `0` rather
than a division by zero. -/
theorem empty_panels_synopsis_only (ep : EpisodeDetail) (currentPanel : ℕ)
    (hempty : ep.panels = []) :
    renderEpisodePage ep currentPanel =
      .synopsisOnly (decide (ep.generation_status = "pending"))
        ep.comic_url ep.video_url ∧
    ep.panels.get? currentPanel = none ∧
    readingProgress ep.panels currentPanel = 0 := by
  refine ⟨?_, ?_, ?_⟩
  · unfold renderEpisodePage
    rw [if_pos (by rw [hempty]; rfl)]
  · rw [hempty]
    rfl
  · unfold readingProgress
    rw [if_neg (by rw [hempty]; simp)]

/-- Witness for C10: a concrete pending episode with no panels renders the
synopsis-only view with the pending notice and progress 0. -/
theorem empty_panels_synopsis_only_witness :
    renderEpisodePage ⟨"ep-1", 1, "t", "s", [], "pending", none, none, false⟩ 0 =
      .synopsisOnly true none none ∧
    readingProgress ([] : List PanelData) 0 = 0 := by
  have h := empty_panels_synopsis_only
    ⟨"ep-1", 1, "t", "s", [], "pending", none, none, false⟩ 0 rfl
  refine ⟨?_, h.2.2⟩
  rw [h.1]
  rfl

end Genesis
